import Mathlib

/-!
A verification development for a small desktop macro runner (src/main.rs).

The source is shallowly embedded: the Key enumeration and its conversions
are translated verbatim; the command interpreter (Command::execute) is
translated to a fuel-indexed evaluator over an explicit backend state that
records every OS input call (the Windows primitives SendInput,
GetCursorPos, SetCursorPos are modelled as an oracle saying whether the
n-th backend call succeeds, plus an event trace); the hotkey scheduler
(input_listener) is translated to a state machine over the per-index
thread-handle map, with thread liveness given by an external oracle.
-/

/-- The virtual-key enumeration of the source (enum Key in src/main.rs), one
constructor per variant, discriminants modelled by toCode below. -/
inductive Key where
  | LeftButton
  | RightButton
  | Cancel
  | MiddleButton
  | XButton1
  | XButton2
  | Back
  | Tab
  | Clear
  | Return
  | Shift
  | Control
  | Menu
  | Pause
  | Capital
  | Escape
  | Convert
  | NonConvert
  | Accept
  | ModeChange
  | Space
  | Prior
  | Next
  | End
  | Home
  | Left
  | Up
  | Right
  | Down
  | Select
  | Print
  | Execute
  | Snapshot
  | Insert
  | Delete
  | Help
  | Key0
  | Key1
  | Key2
  | Key3
  | Key4
  | Key5
  | Key6
  | Key7
  | Key8
  | Key9
  | A
  | B
  | C
  | D
  | E
  | F
  | G
  | H
  | I
  | J
  | K
  | L
  | M
  | N
  | O
  | P
  | Q
  | R
  | S
  | T
  | U
  | V
  | W
  | X
  | Y
  | Z
  | LeftWindows
  | RightWindows
  | Applications
  | Sleep
  | Numpad0
  | Numpad1
  | Numpad2
  | Numpad3
  | Numpad4
  | Numpad5
  | Numpad6
  | Numpad7
  | Numpad8
  | Numpad9
  | Multiply
  | Add
  | Separator
  | Subtract
  | Decimal
  | Divide
  | F1
  | F2
  | F3
  | F4
  | F5
  | F6
  | F7
  | F8
  | F9
  | F10
  | F11
  | F12
  | F13
  | F14
  | F15
  | F16
  | F17
  | F18
  | F19
  | F20
  | F21
  | F22
  | F23
  | F24
  | Numlock
  | Scroll
  | Unassigned
  | LeftShift
  | RightShift
  | LeftControl
  | RightControl
  | LeftMenu
  | RightMenu
  | BrowserBack
  | BrowserForward
  | BrowserRefresh
  | BrowserStop
  | BrowserSearch
  | BrowserFavorites
  | BrowserHome
  | VolumeMute
  | VolumeDown
  | VolumeUp
  | MediaNextTrack
  | MediaPrevTrack
  | MediaStop
  | MediaPlayPause
  | LaunchMail
  | LaunchMediaSelect
  | LaunchApp1
  | LaunchApp2
  | Oem1
  | OemPlus
  | OemComma
  | OemMinus
  | OemPeriod
  | Oem2
  | Oem3
  | Oem4
  | Oem5
  | Oem6
  | Oem7
  | Oem8
  | Oem102
  | ProcessKey
  | Packet
  | Attn
  | CrSel
  | ExSel
  | EraseEOF
  | Play
  | Zoom
  | PA1
  | OemClear
  deriving DecidableEq

/-- Numeric discriminant of each Key variant, as in the Rust enum (used by
the source as the i32 virtual-key code via the cast key as i32). -/
def toCode : Key → Int
  | Key.LeftButton => 0x01
  | Key.RightButton => 0x02
  | Key.Cancel => 0x03
  | Key.MiddleButton => 0x04
  | Key.XButton1 => 0x05
  | Key.XButton2 => 0x06
  | Key.Back => 0x08
  | Key.Tab => 0x09
  | Key.Clear => 0x0C
  | Key.Return => 0x0D
  | Key.Shift => 0x10
  | Key.Control => 0x11
  | Key.Menu => 0x12
  | Key.Pause => 0x13
  | Key.Capital => 0x14
  | Key.Escape => 0x1B
  | Key.Convert => 0x1C
  | Key.NonConvert => 0x1D
  | Key.Accept => 0x1E
  | Key.ModeChange => 0x1F
  | Key.Space => 0x20
  | Key.Prior => 0x21
  | Key.Next => 0x22
  | Key.End => 0x23
  | Key.Home => 0x24
  | Key.Left => 0x25
  | Key.Up => 0x26
  | Key.Right => 0x27
  | Key.Down => 0x28
  | Key.Select => 0x29
  | Key.Print => 0x2A
  | Key.Execute => 0x2B
  | Key.Snapshot => 0x2C
  | Key.Insert => 0x2D
  | Key.Delete => 0x2E
  | Key.Help => 0x2F
  | Key.Key0 => 0x30
  | Key.Key1 => 0x31
  | Key.Key2 => 0x32
  | Key.Key3 => 0x33
  | Key.Key4 => 0x34
  | Key.Key5 => 0x35
  | Key.Key6 => 0x36
  | Key.Key7 => 0x37
  | Key.Key8 => 0x38
  | Key.Key9 => 0x39
  | Key.A => 0x41
  | Key.B => 0x42
  | Key.C => 0x43
  | Key.D => 0x44
  | Key.E => 0x45
  | Key.F => 0x46
  | Key.G => 0x47
  | Key.H => 0x48
  | Key.I => 0x49
  | Key.J => 0x4A
  | Key.K => 0x4B
  | Key.L => 0x4C
  | Key.M => 0x4D
  | Key.N => 0x4E
  | Key.O => 0x4F
  | Key.P => 0x50
  | Key.Q => 0x51
  | Key.R => 0x52
  | Key.S => 0x53
  | Key.T => 0x54
  | Key.U => 0x55
  | Key.V => 0x56
  | Key.W => 0x57
  | Key.X => 0x58
  | Key.Y => 0x59
  | Key.Z => 0x5A
  | Key.LeftWindows => 0x5B
  | Key.RightWindows => 0x5C
  | Key.Applications => 0x5D
  | Key.Sleep => 0x5F
  | Key.Numpad0 => 0x60
  | Key.Numpad1 => 0x61
  | Key.Numpad2 => 0x62
  | Key.Numpad3 => 0x63
  | Key.Numpad4 => 0x64
  | Key.Numpad5 => 0x65
  | Key.Numpad6 => 0x66
  | Key.Numpad7 => 0x67
  | Key.Numpad8 => 0x68
  | Key.Numpad9 => 0x69
  | Key.Multiply => 0x6A
  | Key.Add => 0x6B
  | Key.Separator => 0x6C
  | Key.Subtract => 0x6D
  | Key.Decimal => 0x6E
  | Key.Divide => 0x6F
  | Key.F1 => 0x70
  | Key.F2 => 0x71
  | Key.F3 => 0x72
  | Key.F4 => 0x73
  | Key.F5 => 0x74
  | Key.F6 => 0x75
  | Key.F7 => 0x76
  | Key.F8 => 0x77
  | Key.F9 => 0x78
  | Key.F10 => 0x79
  | Key.F11 => 0x7A
  | Key.F12 => 0x7B
  | Key.F13 => 0x7C
  | Key.F14 => 0x7D
  | Key.F15 => 0x7E
  | Key.F16 => 0x7F
  | Key.F17 => 0x80
  | Key.F18 => 0x81
  | Key.F19 => 0x82
  | Key.F20 => 0x83
  | Key.F21 => 0x84
  | Key.F22 => 0x85
  | Key.F23 => 0x86
  | Key.F24 => 0x87
  | Key.Numlock => 0x90
  | Key.Scroll => 0x91
  | Key.Unassigned => 0x97
  | Key.LeftShift => 0xA0
  | Key.RightShift => 0xA1
  | Key.LeftControl => 0xA2
  | Key.RightControl => 0xA3
  | Key.LeftMenu => 0xA4
  | Key.RightMenu => 0xA5
  | Key.BrowserBack => 0xA6
  | Key.BrowserForward => 0xA7
  | Key.BrowserRefresh => 0xA8
  | Key.BrowserStop => 0xA9
  | Key.BrowserSearch => 0xAA
  | Key.BrowserFavorites => 0xAB
  | Key.BrowserHome => 0xAC
  | Key.VolumeMute => 0xAD
  | Key.VolumeDown => 0xAE
  | Key.VolumeUp => 0xAF
  | Key.MediaNextTrack => 0xB0
  | Key.MediaPrevTrack => 0xB1
  | Key.MediaStop => 0xB2
  | Key.MediaPlayPause => 0xB3
  | Key.LaunchMail => 0xB4
  | Key.LaunchMediaSelect => 0xB5
  | Key.LaunchApp1 => 0xB6
  | Key.LaunchApp2 => 0xB7
  | Key.Oem1 => 0xBA
  | Key.OemPlus => 0xBB
  | Key.OemComma => 0xBC
  | Key.OemMinus => 0xBD
  | Key.OemPeriod => 0xBE
  | Key.Oem2 => 0xBF
  | Key.Oem3 => 0xC0
  | Key.Oem4 => 0xDB
  | Key.Oem5 => 0xDC
  | Key.Oem6 => 0xDD
  | Key.Oem7 => 0xDE
  | Key.Oem8 => 0xDF
  | Key.Oem102 => 0xE2
  | Key.ProcessKey => 0xE5
  | Key.Packet => 0xE7
  | Key.Attn => 0xF6
  | Key.CrSel => 0xF7
  | Key.ExSel => 0xF8
  | Key.EraseEOF => 0xF9
  | Key.Play => 0xFA
  | Key.Zoom => 0xFB
  | Key.PA1 => 0xFD
  | Key.OemClear => 0xFE

set_option maxRecDepth 4000 in
/-- impl From i32 for Key: total conversion from a numeric code; unknown
codes map to Key.Unassigned (the source also logs a warning there). The
source's match on the integer is embedded as the equivalent chain of
equality tests, one per arm, in source order. -/
def fromCode (n : Int) : Key :=
  if n = 0x01 then Key.LeftButton
  else if n = 0x02 then Key.RightButton
  else if n = 0x03 then Key.Cancel
  else if n = 0x04 then Key.MiddleButton
  else if n = 0x05 then Key.XButton1
  else if n = 0x06 then Key.XButton2
  else if n = 0x08 then Key.Back
  else if n = 0x09 then Key.Tab
  else if n = 0x0C then Key.Clear
  else if n = 0x0D then Key.Return
  else if n = 0x10 then Key.Shift
  else if n = 0x11 then Key.Control
  else if n = 0x12 then Key.Menu
  else if n = 0x13 then Key.Pause
  else if n = 0x14 then Key.Capital
  else if n = 0x1B then Key.Escape
  else if n = 0x1C then Key.Convert
  else if n = 0x1D then Key.NonConvert
  else if n = 0x1E then Key.Accept
  else if n = 0x1F then Key.ModeChange
  else if n = 0x20 then Key.Space
  else if n = 0x21 then Key.Prior
  else if n = 0x22 then Key.Next
  else if n = 0x23 then Key.End
  else if n = 0x24 then Key.Home
  else if n = 0x25 then Key.Left
  else if n = 0x26 then Key.Up
  else if n = 0x27 then Key.Right
  else if n = 0x28 then Key.Down
  else if n = 0x29 then Key.Select
  else if n = 0x2A then Key.Print
  else if n = 0x2B then Key.Execute
  else if n = 0x2C then Key.Snapshot
  else if n = 0x2D then Key.Insert
  else if n = 0x2E then Key.Delete
  else if n = 0x2F then Key.Help
  else if n = 0x30 then Key.Key0
  else if n = 0x31 then Key.Key1
  else if n = 0x32 then Key.Key2
  else if n = 0x33 then Key.Key3
  else if n = 0x34 then Key.Key4
  else if n = 0x35 then Key.Key5
  else if n = 0x36 then Key.Key6
  else if n = 0x37 then Key.Key7
  else if n = 0x38 then Key.Key8
  else if n = 0x39 then Key.Key9
  else if n = 0x41 then Key.A
  else if n = 0x42 then Key.B
  else if n = 0x43 then Key.C
  else if n = 0x44 then Key.D
  else if n = 0x45 then Key.E
  else if n = 0x46 then Key.F
  else if n = 0x47 then Key.G
  else if n = 0x48 then Key.H
  else if n = 0x49 then Key.I
  else if n = 0x4A then Key.J
  else if n = 0x4B then Key.K
  else if n = 0x4C then Key.L
  else if n = 0x4D then Key.M
  else if n = 0x4E then Key.N
  else if n = 0x4F then Key.O
  else if n = 0x50 then Key.P
  else if n = 0x51 then Key.Q
  else if n = 0x52 then Key.R
  else if n = 0x53 then Key.S
  else if n = 0x54 then Key.T
  else if n = 0x55 then Key.U
  else if n = 0x56 then Key.V
  else if n = 0x57 then Key.W
  else if n = 0x58 then Key.X
  else if n = 0x59 then Key.Y
  else if n = 0x5A then Key.Z
  else if n = 0x5B then Key.LeftWindows
  else if n = 0x5C then Key.RightWindows
  else if n = 0x5D then Key.Applications
  else if n = 0x5F then Key.Sleep
  else if n = 0x60 then Key.Numpad0
  else if n = 0x61 then Key.Numpad1
  else if n = 0x62 then Key.Numpad2
  else if n = 0x63 then Key.Numpad3
  else if n = 0x64 then Key.Numpad4
  else if n = 0x65 then Key.Numpad5
  else if n = 0x66 then Key.Numpad6
  else if n = 0x67 then Key.Numpad7
  else if n = 0x68 then Key.Numpad8
  else if n = 0x69 then Key.Numpad9
  else if n = 0x6A then Key.Multiply
  else if n = 0x6B then Key.Add
  else if n = 0x6C then Key.Separator
  else if n = 0x6D then Key.Subtract
  else if n = 0x6E then Key.Decimal
  else if n = 0x6F then Key.Divide
  else if n = 0x70 then Key.F1
  else if n = 0x71 then Key.F2
  else if n = 0x72 then Key.F3
  else if n = 0x73 then Key.F4
  else if n = 0x74 then Key.F5
  else if n = 0x75 then Key.F6
  else if n = 0x76 then Key.F7
  else if n = 0x77 then Key.F8
  else if n = 0x78 then Key.F9
  else if n = 0x79 then Key.F10
  else if n = 0x7A then Key.F11
  else if n = 0x7B then Key.F12
  else if n = 0x7C then Key.F13
  else if n = 0x7D then Key.F14
  else if n = 0x7E then Key.F15
  else if n = 0x7F then Key.F16
  else if n = 0x80 then Key.F17
  else if n = 0x81 then Key.F18
  else if n = 0x82 then Key.F19
  else if n = 0x83 then Key.F20
  else if n = 0x84 then Key.F21
  else if n = 0x85 then Key.F22
  else if n = 0x86 then Key.F23
  else if n = 0x87 then Key.F24
  else if n = 0x90 then Key.Numlock
  else if n = 0x91 then Key.Scroll
  else if n = 0x97 then Key.Unassigned
  else if n = 0xA0 then Key.LeftShift
  else if n = 0xA1 then Key.RightShift
  else if n = 0xA2 then Key.LeftControl
  else if n = 0xA3 then Key.RightControl
  else if n = 0xA4 then Key.LeftMenu
  else if n = 0xA5 then Key.RightMenu
  else if n = 0xA6 then Key.BrowserBack
  else if n = 0xA7 then Key.BrowserForward
  else if n = 0xA8 then Key.BrowserRefresh
  else if n = 0xA9 then Key.BrowserStop
  else if n = 0xAA then Key.BrowserSearch
  else if n = 0xAB then Key.BrowserFavorites
  else if n = 0xAC then Key.BrowserHome
  else if n = 0xAD then Key.VolumeMute
  else if n = 0xAE then Key.VolumeDown
  else if n = 0xAF then Key.VolumeUp
  else if n = 0xB0 then Key.MediaNextTrack
  else if n = 0xB1 then Key.MediaPrevTrack
  else if n = 0xB2 then Key.MediaStop
  else if n = 0xB3 then Key.MediaPlayPause
  else if n = 0xB4 then Key.LaunchMail
  else if n = 0xB5 then Key.LaunchMediaSelect
  else if n = 0xB6 then Key.LaunchApp1
  else if n = 0xB7 then Key.LaunchApp2
  else if n = 0xBA then Key.Oem1
  else if n = 0xBB then Key.OemPlus
  else if n = 0xBC then Key.OemComma
  else if n = 0xBD then Key.OemMinus
  else if n = 0xBE then Key.OemPeriod
  else if n = 0xBF then Key.Oem2
  else if n = 0xC0 then Key.Oem3
  else if n = 0xDB then Key.Oem4
  else if n = 0xDC then Key.Oem5
  else if n = 0xDD then Key.Oem6
  else if n = 0xDE then Key.Oem7
  else if n = 0xDF then Key.Oem8
  else if n = 0xE2 then Key.Oem102
  else if n = 0xE5 then Key.ProcessKey
  else if n = 0xE7 then Key.Packet
  else if n = 0xF6 then Key.Attn
  else if n = 0xF7 then Key.CrSel
  else if n = 0xF8 then Key.ExSel
  else if n = 0xF9 then Key.EraseEOF
  else if n = 0xFA then Key.Play
  else if n = 0xFB then Key.Zoom
  else if n = 0xFD then Key.PA1
  else if n = 0xFE then Key.OemClear
  else Key.Unassigned

/-- impl From char for Key (src/main.rs): total conversion from a character;
space, ASCII letters (case-insensitively) and ASCII digits are mapped,
everything else maps to Key.Unassigned. The source's match on the
character is embedded as the equivalent chain of equality tests, one per
arm (a two-pattern arm as the disjunction of its two tests), in source
order. -/
def fromChar (c : Char) : Key :=
  if c = ' ' then Key.Space
  else if c = 'A' ∨ c = 'a' then Key.A
  else if c = 'B' ∨ c = 'b' then Key.B
  else if c = 'C' ∨ c = 'c' then Key.C
  else if c = 'D' ∨ c = 'd' then Key.D
  else if c = 'E' ∨ c = 'e' then Key.E
  else if c = 'F' ∨ c = 'f' then Key.F
  else if c = 'G' ∨ c = 'g' then Key.G
  else if c = 'H' ∨ c = 'h' then Key.H
  else if c = 'I' ∨ c = 'i' then Key.I
  else if c = 'J' ∨ c = 'j' then Key.J
  else if c = 'K' ∨ c = 'k' then Key.K
  else if c = 'L' ∨ c = 'l' then Key.L
  else if c = 'M' ∨ c = 'm' then Key.M
  else if c = 'N' ∨ c = 'n' then Key.N
  else if c = 'O' ∨ c = 'o' then Key.O
  else if c = 'P' ∨ c = 'p' then Key.P
  else if c = 'Q' ∨ c = 'q' then Key.Q
  else if c = 'R' ∨ c = 'r' then Key.R
  else if c = 'S' ∨ c = 's' then Key.S
  else if c = 'T' ∨ c = 't' then Key.T
  else if c = 'U' ∨ c = 'u' then Key.U
  else if c = 'V' ∨ c = 'v' then Key.V
  else if c = 'W' ∨ c = 'w' then Key.W
  else if c = 'X' ∨ c = 'x' then Key.X
  else if c = 'Y' ∨ c = 'y' then Key.Y
  else if c = 'Z' ∨ c = 'z' then Key.Z
  else if c = '0' then Key.Key0
  else if c = '1' then Key.Key1
  else if c = '2' then Key.Key2
  else if c = '3' then Key.Key3
  else if c = '4' then Key.Key4
  else if c = '5' then Key.Key5
  else if c = '6' then Key.Key6
  else if c = '7' then Key.Key7
  else if c = '8' then Key.Key8
  else if c = '9' then Key.Key9
  else Key.Unassigned


/-- The mouse buttons driven by left_click, middle_click and right_click. -/
inductive MouseButton where
  | left
  | middle
  | right
  deriving DecidableEq

/-- One OS input primitive invocation, as issued by the source through the
Windows backend (SendInput, GetCursorPos, SetCursorPos). The key events
carry the i32 virtual-key code passed to key_down and key_up. -/
inductive Event where
  | getCursor
  | setCursor (x y : Int)
  | mouseDown (b : MouseButton)
  | mouseUp (b : MouseButton)
  | keyDown (code : Int)
  | keyUp (code : Int)
  deriving DecidableEq

/-- The error a failing backend call surfaces (the source builds an
anyhow::Error from the GetLastError code; we identify the error by the
index of the failing call). -/
inductive ExecError where
  | backendError (callIdx : Nat)
  deriving DecidableEq

/-- Observable backend state: how many backend calls were made so far and
the trace of events successfully issued. -/
structure BackendState where
  calls : Nat
  trace : List Event
  deriving DecidableEq

/-- External world oracle: responds n says whether the n-th backend call
succeeds (SendInput / GetCursorPos / SetCursorPos outcomes), and upper
models char::is_uppercase, the Unicode uppercase predicate used by the
TextInput branch of Command::execute. -/
structure Env where
  responds : Nat → Bool
  upper : Char → Bool

/-- One backend call: on success the event is issued and appended to the
trace, on failure an error is returned; either way the call counter
advances. -/
def bcall (env : Env) (ev : Event) (s : BackendState) :
    Except ExecError Unit × BackendState :=
  if env.responds s.calls then
    (Except.ok (), { calls := s.calls + 1, trace := s.trace ++ [ev] })
  else
    (Except.error (ExecError.backendError s.calls), { calls := s.calls + 1, trace := s.trace })

/-- key_down (src/main.rs): send one key-down event for a virtual-key code. -/
def key_down (env : Env) (code : Int) (s : BackendState) :
    Except ExecError Unit × BackendState :=
  bcall env (Event.keyDown code) s

/-- key_up (src/main.rs): send one key-up event for a virtual-key code. -/
def key_up (env : Env) (code : Int) (s : BackendState) :
    Except ExecError Unit × BackendState :=
  bcall env (Event.keyUp code) s

/-- press_key (src/main.rs): key_down then key_up, short-circuiting on the
first failure. -/
def press_key (env : Env) (code : Int) (s : BackendState) :
    Except ExecError Unit × BackendState :=
  match key_down env code s with
  | (Except.ok _, s1) => key_up env code s1
  | (Except.error e, s1) => (Except.error e, s1)

/-- First loop of press_key_combo (src/main.rs): key_down for every key of
the set, in iteration order, short-circuiting on the first failure. -/
def downAll (env : Env) : List Key → BackendState → Except ExecError Unit × BackendState
  | [], s => (Except.ok (), s)
  | k :: rest, s =>
    match key_down env (toCode k) s with
    | (Except.ok _, s1) => downAll env rest s1
    | (Except.error e, s1) => (Except.error e, s1)

/-- Second loop of press_key_combo (src/main.rs): key_up for every key of
the set, in iteration order, short-circuiting on the first failure. -/
def upAll (env : Env) : List Key → BackendState → Except ExecError Unit × BackendState
  | [], s => (Except.ok (), s)
  | k :: rest, s =>
    match key_up env (toCode k) s with
    | (Except.ok _, s1) => upAll env rest s1
    | (Except.error e, s1) => (Except.error e, s1)

/-- press_key_combo (src/main.rs): all key-down events first, then all
key-up events. The HashSet of the source is embedded as the list of its
keys in iteration order (the same set instance is iterated twice, so both
loops see the same order). -/
def press_key_combo (env : Env) (keys : List Key) (s : BackendState) :
    Except ExecError Unit × BackendState :=
  match downAll env keys s with
  | (Except.ok _, s1) => upAll env keys s1
  | (Except.error e, s1) => (Except.error e, s1)

/-- left_click (src/main.rs): mouse left down then left up via SendInput,
short-circuiting on the first failure. -/
def left_click (env : Env) (s : BackendState) : Except ExecError Unit × BackendState :=
  match bcall env (Event.mouseDown MouseButton.left) s with
  | (Except.ok _, s1) => bcall env (Event.mouseUp MouseButton.left) s1
  | (Except.error e, s1) => (Except.error e, s1)

/-- middle_click (src/main.rs): mouse middle down then middle up. -/
def middle_click (env : Env) (s : BackendState) : Except ExecError Unit × BackendState :=
  match bcall env (Event.mouseDown MouseButton.middle) s with
  | (Except.ok _, s1) => bcall env (Event.mouseUp MouseButton.middle) s1
  | (Except.error e, s1) => (Except.error e, s1)

/-- right_click (src/main.rs): mouse right down then right up. -/
def right_click (env : Env) (s : BackendState) : Except ExecError Unit × BackendState :=
  match bcall env (Event.mouseDown MouseButton.right) s with
  | (Except.ok _, s1) => bcall env (Event.mouseUp MouseButton.right) s1
  | (Except.error e, s1) => (Except.error e, s1)

/-- get_cursor_pos (src/main.rs): query the pointer position (the returned
coordinates are only printed by the caller and are not modelled). -/
def get_cursor_pos (env : Env) (s : BackendState) : Except ExecError Unit × BackendState :=
  bcall env Event.getCursor s

/-- set_cursor_pos (src/main.rs): move the pointer. -/
def set_cursor_pos (env : Env) (x y : Int) (s : BackendState) :
    Except ExecError Unit × BackendState :=
  bcall env (Event.setCursor x y) s

/-- Body of the TextInput arm of Command::execute (src/main.rs): iterate the
text by character; an uppercase character is pressed as the combo
containing Shift and the mapped key, any other character is pressed alone;
short-circuits on the first failure. The two-element HashSet built by the
source from the array pair is embedded in its insertion order. -/
def textLoop (env : Env) : List Char → BackendState → Except ExecError Unit × BackendState
  | [], s => (Except.ok (), s)
  | c :: rest, s =>
    match (if env.upper c then press_key_combo env [Key.Shift, fromChar c] s
           else press_key env (toCode (fromChar c)) s) with
    | (Except.ok _, s1) => textLoop env rest s1
    | (Except.error e, s1) => (Except.error e, s1)

/-- enum Command (src/main.rs). HashSet payloads are embedded as the list of
elements in iteration order; u64 and u32 payloads as Nat, i32 as Int. -/
inductive Command where
  | GetMousePos
  | SetMousePos (x y : Int)
  | LeftClick
  | MiddleClick
  | RightClick
  | PressKey (key : Key)
  | PressKeyCombo (keys : List Key)
  | TextInput (text : String)
  | Wait (ms : Nat)
  | Loop (iterations : Nat) (commands : List Command)

mutual

/-- Command::execute (src/main.rs), step-indexed: fuel is consumed on entry
of every evaluator call, so the only source of a none result is fuel
exhaustion; the source's genuinely diverging construct, Loop with
iterations == 0, is the only command that returns none at every fuel. -/
def executeFuel (env : Env) : Nat → Command → BackendState →
    Option (Except ExecError Unit × BackendState)
  | 0, _, _ => none
  | _ + 1, Command.GetMousePos, s => some (get_cursor_pos env s)
  | _ + 1, Command.SetMousePos x y, s => some (set_cursor_pos env x y s)
  | _ + 1, Command.LeftClick, s => some (left_click env s)
  | _ + 1, Command.MiddleClick, s => some (middle_click env s)
  | _ + 1, Command.RightClick, s => some (right_click env s)
  | _ + 1, Command.PressKey key, s => some (press_key env (toCode key) s)
  | _ + 1, Command.PressKeyCombo keys, s => some (press_key_combo env keys s)
  | _ + 1, Command.TextInput text, s => some (textLoop env text.data s)
  | _ + 1, Command.Wait _, s => some (Except.ok (), s)
  | fuel + 1, Command.Loop 0 cmds, s =>
    match execSeq env fuel cmds s with
    | none => none
    | some (Except.error e, s1) => some (Except.error e, s1)
    | some (Except.ok _, s1) => executeFuel env fuel (Command.Loop 0 cmds) s1
  | fuel + 1, Command.Loop (n + 1) cmds, s => runIters env fuel (n + 1) cmds s

/-- Execution of a command sequence in order, short-circuiting on the first
failure: the body of the iteration loops in Command::execute. -/
def execSeq (env : Env) : Nat → List Command → BackendState →
    Option (Except ExecError Unit × BackendState)
  | 0, _, _ => none
  | _ + 1, [], s => some (Except.ok (), s)
  | fuel + 1, c :: rest, s =>
    match executeFuel env fuel c s with
    | none => none
    | some (Except.error e, s1) => some (Except.error e, s1)
    | some (Except.ok _, s1) => execSeq env fuel rest s1

/-- The for loop of the Loop arm with iterations > 0: run the body k times
sequentially, short-circuiting on the first failure. -/
def runIters (env : Env) : Nat → Nat → List Command → BackendState →
    Option (Except ExecError Unit × BackendState)
  | 0, _, _, _ => none
  | _ + 1, 0, _, s => some (Except.ok (), s)
  | fuel + 1, k + 1, cmds, s =>
    match execSeq env fuel cmds s with
    | none => none
    | some (Except.error e, s1) => some (Except.error e, s1)
    | some (Except.ok _, s1) => runIters env fuel k cmds s1

end

instance : DecidableEq (Except ExecError Unit) := fun a b =>
  match a, b with
  | Except.ok (), Except.ok () => isTrue rfl
  | Except.error e1, Except.error e2 =>
    if h : e1 = e2 then isTrue (by rw [h]) else isFalse (fun hh => by cases hh; exact h rfl)
  | Except.ok _, Except.error _ => isFalse (fun hh => by cases hh)
  | Except.error _, Except.ok _ => isFalse (fun hh => by cases hh)

/-- A command execution that terminates with a result, at some fuel. -/
def Execs (env : Env) (c : Command) (s : BackendState)
    (out : Except ExecError Unit × BackendState) : Prop :=
  ∃ fuel, executeFuel env fuel c s = some out

/-- A command-sequence execution that terminates with a result, at some
fuel. -/
def ExecsSeq (env : Env) (cmds : List Command) (s : BackendState)
    (out : Except ExecError Unit × BackendState) : Prop :=
  ∃ fuel, execSeq env fuel cmds s = some out

/-- Spec-side definition, following the claim's words for Repeat with a
positive count: the relation holding of a start state and a result when the
body sequence is executed in order exactly n times sequentially, stopping
immediately and propagating the error as soon as an execution of the body
fails. Compared against the Loop arm of Command::execute in C1. -/
def IterN (env : Env) : Nat → List Command → BackendState →
    (Except ExecError Unit × BackendState) → Prop
  | 0, _, s, out => out = (Except.ok (), s)
  | n + 1, cmds, s, out =>
    (∃ s1, ExecsSeq env cmds s (Except.ok (), s1) ∧ IterN env n cmds s1 out) ∨
    (∃ e s1, ExecsSeq env cmds s (Except.error e, s1) ∧ out = (Except.error e, s1))

/-- The single-character command the TextInput arm of Command::execute is
equivalent to: a Shift-plus-mapped-key combination for an uppercase
character, a plain key press otherwise. -/
def charCmd (env : Env) (c : Char) : Command :=
  if env.upper c then Command.PressKeyCombo [Key.Shift, fromChar c]
  else Command.PressKey (fromChar c)

/-- How one spawned execution context ends: all commands processed, or the
thread panicked (unwrap on an Err). -/
inductive RunOutcome where
  | completed
  | panicked (e : ExecError)
  deriving DecidableEq

/-- Thread body spawned by input_listener when a handle was already
recorded for the index and found finished (the Some branch of the match):
each top-level command's error is matched and logged via log::error, and
iteration continues with the next command. Returns the final backend state
and the list of logged errors; none only on fuel exhaustion. -/
def threadRunLogged (env : Env) (fuel : Nat) : List Command → BackendState →
    Option (BackendState × List ExecError)
  | [], s => some (s, [])
  | c :: rest, s =>
    match executeFuel env fuel c s with
    | none => none
    | some (Except.ok _, s1) => threadRunLogged env fuel rest s1
    | some (Except.error e, s1) =>
      match threadRunLogged env fuel rest s1 with
      | none => none
      | some (s2, logs) => some (s2, e :: logs)

/-- Thread body spawned by input_listener on the first activation of an
index (the None branch of the match): command.execute().unwrap(), so the
first failing command panics the thread and the remainder of the sequence
is dropped; nothing is logged. -/
def threadRunUnwrap (env : Env) (fuel : Nat) : List Command → BackendState →
    Option (RunOutcome × BackendState)
  | [], s => some (RunOutcome.completed, s)
  | c :: rest, s =>
    match executeFuel env fuel c s with
    | none => none
    | some (Except.ok _, s1) => threadRunUnwrap env fuel rest s1
    | some (Except.error e, s1) => some (RunOutcome.panicked e, s1)

/-- Observable scheduler actions of one input_listener iteration: spawning
an execution context (with the branch that spawned it) or emitting the
"Command already executing" warning. -/
inductive SchedEvent where
  | spawnedFirst (idx id : Nat)
  | spawnedLogged (idx id : Nat)
  | warned (idx : Nat)
  deriving DecidableEq

/-- The mutable state owned by the input_listener loop: the HashMap from
index to thread handle (embedded as an association list from index to an
abstract handle id, insertion replacing the previous binding), a counter
supplying fresh handle ids, and the list of observable actions so far. -/
structure SchedState where
  threads : List (Nat × Nat)
  nextId : Nat
  events : List SchedEvent
  deriving DecidableEq

/-- HashMap::get on the embedded thread map. -/
def lookupThread : List (Nat × Nat) → Nat → Option Nat
  | [], _ => none
  | (i, v) :: rest, idx => if i = idx then some v else lookupThread rest idx

/-- HashMap::insert on the embedded thread map (replaces the binding). -/
def insertThread : List (Nat × Nat) → Nat → Nat → List (Nat × Nat)
  | [], idx, id => [(idx, id)]
  | (i, v) :: rest, idx, id =>
    if i = idx then (idx, id) :: rest else (i, v) :: insertThread rest idx id

/-- One macro slot of one input_listener poll iteration. fin is the
JoinHandle::is_finished oracle for this instant; active abstracts the
hotkey condition (every key of the slot's hotkey held or freshly pressed).
When active, the source sleeps 1000 ms (not modelled) and then: with no
recorded handle it spawns and records a new context (unwrap body); with a
finished recorded handle it spawns and records a replacement (logged body);
otherwise it only warns. -/
def tickIndex (fin : Nat → Bool) (st : SchedState) (idx : Nat) (active : Bool) : SchedState :=
  if active then
    match lookupThread st.threads idx with
    | some id =>
      if fin id then
        { threads := insertThread st.threads idx st.nextId, nextId := st.nextId + 1,
          events := st.events ++ [SchedEvent.spawnedLogged idx st.nextId] }
      else
        { st with events := st.events ++ [SchedEvent.warned idx] }
    | none =>
      { threads := insertThread st.threads idx st.nextId, nextId := st.nextId + 1,
        events := st.events ++ [SchedEvent.spawnedFirst idx st.nextId] }
  else st

/-- The enumerate loop of one poll iteration, processing the slots from
index idx upward with their activity flags. -/
def tickFrom (fin : Nat → Bool) : Nat → List Bool → SchedState → SchedState
  | _, [], st => st
  | idx, a :: rest, st => tickFrom fin (idx + 1) rest (tickIndex fin st idx a)

/-- One full poll iteration of input_listener over all slots. -/
def tick (fin : Nat → Bool) (acts : List Bool) (st : SchedState) : SchedState :=
  tickFrom fin 0 acts st

/-- The input_listener polling loop run for finitely many iterations: at
iteration time t the liveness oracle is fin t and the hotkey activity per
slot is the corresponding entry of acts. -/
def schedRun (fin : Nat → Nat → Bool) : List (List Bool) → Nat → SchedState → SchedState
  | [], _, st => st
  | acts :: rest, t, st => schedRun fin rest (t + 1) (tick (fin t) acts st)

/-- The contexts spawned so far, as (index, handle id) pairs, read off the
scheduler action list. -/
def spawnsOf (evs : List SchedEvent) : List (Nat × Nat) :=
  evs.filterMap (fun e =>
    match e with
    | SchedEvent.spawnedFirst i id => some (i, id)
    | SchedEvent.spawnedLogged i id => some (i, id)
    | SchedEvent.warned _ => none)

/-- The empty initial scheduler state (macro_threads starts empty). -/
def schedInit : SchedState :=
  { threads := [], nextId := 0, events := [] }

/-- The per-index single-context invariant: every context ever spawned is
either finished (by the current liveness oracle) or is the one currently
recorded in the thread map for its index. -/
def SchedInv (f : Nat → Bool) (st : SchedState) : Prop :=
  ∀ p ∈ spawnsOf st.events, f p.2 = true ∨ lookupThread st.threads p.1 = some p.2

/-- An environment whose backend calls all succeed; the uppercase oracle is
ASCII uppercase (it agrees with char::is_uppercase on every character that
has a key mapping). -/
def envOkAll : Env :=
  { responds := fun _ => true, upper := Char.isUpper }

/-- An environment whose backend calls all fail. -/
def envFailAll : Env :=
  { responds := fun _ => false, upper := Char.isUpper }

/-- An environment where exactly the first backend call fails. -/
def envFailFirst : Env :=
  { responds := fun n => decide (0 < n), upper := Char.isUpper }

/-- The initial backend state: no calls made, empty trace. -/
def s0 : BackendState :=
  { calls := 0, trace := [] }

theorem fuelStep (env : Env) : ∀ fuel,
    (∀ c s out, executeFuel env fuel c s = some out → executeFuel env (fuel + 1) c s = some out) ∧
    (∀ cmds s out, execSeq env fuel cmds s = some out → execSeq env (fuel + 1) cmds s = some out) ∧
    (∀ k cmds s out, runIters env fuel k cmds s = some out →
      runIters env (fuel + 1) k cmds s = some out) := by
  intro fuel
  induction fuel with
  | zero =>
    refine ⟨fun c s out h => ?_, fun cmds s out h => ?_, fun k cmds s out h => ?_⟩ <;>
      simp [executeFuel, execSeq, runIters] at h
  | succ f ih =>
    obtain ⟨ihE, ihS, ihI⟩ := ih
    refine ⟨fun c s out h => ?_, fun cmds s out h => ?_, fun k cmds s out h => ?_⟩
    · match c with
      | Command.GetMousePos | Command.SetMousePos _ _ | Command.LeftClick
      | Command.MiddleClick | Command.RightClick | Command.PressKey _
      | Command.PressKeyCombo _ | Command.TextInput _ | Command.Wait _ => exact h
      | Command.Loop 0 cmds =>
        rw [executeFuel] at h ⊢
        cases hs : execSeq env f cmds s with
        | none => rw [hs] at h; simp at h
        | some r =>
          obtain ⟨r1, s1⟩ := r
          rw [hs] at h
          cases r1 with
          | error e => simp at h; rw [ihS cmds s _ hs]; simpa using h
          | ok u => simp at h; rw [ihS cmds s _ hs]; simpa using ihE _ _ _ h
      | Command.Loop (n + 1) cmds =>
        rw [executeFuel] at h ⊢
        exact ihI _ _ _ _ h
    · match cmds with
      | [] => exact h
      | c :: rest =>
        rw [execSeq] at h ⊢
        cases hc : executeFuel env f c s with
        | none => rw [hc] at h; simp at h
        | some r =>
          obtain ⟨r1, s1⟩ := r
          rw [hc] at h
          cases r1 with
          | error e => simp at h; rw [ihE c s _ hc]; simpa using h
          | ok u => simp at h; rw [ihE c s _ hc]; simpa using ihS _ _ _ h
    · match k with
      | 0 => exact h
      | j + 1 =>
        rw [runIters] at h ⊢
        cases hs : execSeq env f cmds s with
        | none => rw [hs] at h; simp at h
        | some r =>
          obtain ⟨r1, s1⟩ := r
          rw [hs] at h
          cases r1 with
          | error e => simp at h; rw [ihS cmds s _ hs]; simpa using h
          | ok u => simp at h; rw [ihS cmds s _ hs]; simpa using ihI _ _ _ _ h

theorem executeFuel_mono (env : Env) {fuel fuel' : Nat} (hle : fuel ≤ fuel')
    {c : Command} {s : BackendState} {out : Except ExecError Unit × BackendState}
    (h : executeFuel env fuel c s = some out) : executeFuel env fuel' c s = some out := by
  induction fuel' with
  | zero =>
    have hz : fuel = 0 := by omega
    subst hz
    simp [executeFuel] at h
  | succ f ih =>
    rcases Nat.lt_or_ge fuel (f + 1) with hlt | hge
    · exact (fuelStep env f).1 c s out (ih (by omega))
    · have : fuel = f + 1 := by omega
      subst this; exact h

theorem execSeq_mono (env : Env) {fuel fuel' : Nat} (hle : fuel ≤ fuel')
    {cmds : List Command} {s : BackendState} {out : Except ExecError Unit × BackendState}
    (h : execSeq env fuel cmds s = some out) : execSeq env fuel' cmds s = some out := by
  induction fuel' with
  | zero =>
    have hz : fuel = 0 := by omega
    subst hz
    simp [execSeq] at h
  | succ f ih =>
    rcases Nat.lt_or_ge fuel (f + 1) with hlt | hge
    · exact (fuelStep env f).2.1 cmds s out (ih (by omega))
    · have : fuel = f + 1 := by omega
      subst this; exact h

theorem runIters_mono (env : Env) {fuel fuel' : Nat} (hle : fuel ≤ fuel')
    {k : Nat} {cmds : List Command} {s : BackendState}
    {out : Except ExecError Unit × BackendState}
    (h : runIters env fuel k cmds s = some out) : runIters env fuel' k cmds s = some out := by
  induction fuel' with
  | zero =>
    have hz : fuel = 0 := by omega
    subst hz
    simp [runIters] at h
  | succ f ih =>
    rcases Nat.lt_or_ge fuel (f + 1) with hlt | hge
    · exact (fuelStep env f).2.2 k cmds s out (ih (by omega))
    · have : fuel = f + 1 := by omega
      subst this; exact h

theorem runIters_toIterN (env : Env) : ∀ fuel k cmds s out,
    runIters env fuel k cmds s = some out → IterN env k cmds s out := by
  intro fuel
  induction fuel with
  | zero => intro k cmds s out h; simp [runIters] at h
  | succ f ih =>
    intro k cmds s out h
    match k with
    | 0 =>
      simp [runIters] at h
      simpa [IterN] using h.symm
    | j + 1 =>
      rw [runIters] at h
      cases hs : execSeq env f cmds s with
      | none => rw [hs] at h; simp at h
      | some r =>
        obtain ⟨r1, s1⟩ := r
        rw [hs] at h
        cases r1 with
        | error e =>
          simp at h
          exact Or.inr ⟨e, s1, ⟨f, hs⟩, h.symm⟩
        | ok u =>
          simp at h
          exact Or.inl ⟨s1, ⟨f, hs⟩, ih j cmds s1 out h⟩

theorem IterN_toRunIters (env : Env) : ∀ k cmds s out,
    IterN env k cmds s out → ∃ fuel, runIters env fuel k cmds s = some out := by
  intro k
  induction k with
  | zero =>
    intro cmds s out h
    rw [IterN] at h
    exact ⟨1, by rw [h]; rfl⟩
  | succ j ih =>
    intro cmds s out h
    rw [IterN] at h
    rcases h with ⟨s1, ⟨f1, hs⟩, hiter⟩ | ⟨e, s1, ⟨f1, hs⟩, hout⟩
    · obtain ⟨f2, hr⟩ := ih cmds s1 out hiter
      refine ⟨max f1 f2 + 1, ?_⟩
      rw [runIters, execSeq_mono env (Nat.le_max_left f1 f2) hs]
      exact runIters_mono env (Nat.le_max_right f1 f2) hr
    · refine ⟨f1 + 1, ?_⟩
      rw [runIters, hs, hout]

theorem IterN_nil_ok (env : Env) : ∀ k s, IterN env k [] s (Except.ok (), s) := by
  intro k
  induction k with
  | zero => intro s; rfl
  | succ j ih =>
    intro s
    exact Or.inl ⟨s, ⟨1, rfl⟩, ih s⟩

/-- C1: for every count n > 0 and body, executing Loop(n, body) is exactly
the n-fold sequential execution of the body, stopping immediately and
propagating the error as soon as a child command fails (the IterN
relation); an empty body succeeds, leaving the backend untouched; and
Loop(3, [PressKey A]) issues the press of A exactly 3 times, in order. -/
theorem C1_loop_positive_executes_body_n_times :
    (∀ (env : Env) (n : Nat) (body : List Command) (s : BackendState) out, 0 < n →
      (Execs env (Command.Loop n body) s out ↔ IterN env n body s out)) ∧
    (∀ (env : Env) (n : Nat) (s : BackendState), 0 < n →
      Execs env (Command.Loop n []) s (Except.ok (), s)) ∧
    executeFuel envOkAll 9 (Command.Loop 3 [Command.PressKey Key.A]) s0 =
      some (Except.ok (), ⟨6, [Event.keyDown 65, Event.keyUp 65, Event.keyDown 65,
        Event.keyUp 65, Event.keyDown 65, Event.keyUp 65]⟩) := by
  have main : ∀ (env : Env) (n : Nat) (body : List Command) (s : BackendState) out, 0 < n →
      (Execs env (Command.Loop n body) s out ↔ IterN env n body s out) := by
    intro env n body s out hn
    match n, hn with
    | m + 1, _ =>
      constructor
      · rintro ⟨fuel, h⟩
        match fuel with
        | 0 => simp [executeFuel] at h
        | f + 1 =>
          rw [executeFuel] at h
          exact runIters_toIterN env f (m + 1) body s out h
      · intro h
        obtain ⟨fuel, hr⟩ := IterN_toRunIters env (m + 1) body s out h
        exact ⟨fuel + 1, by rw [executeFuel]; exact hr⟩
  refine ⟨main, fun env n s hn => ?_, by decide⟩
  exact (main env n [] s (Except.ok (), s) hn).mpr (IterN_nil_ok env n s)

theorem C1_witness :
    (0 : Nat) < 2 ∧
    (Execs envOkAll (Command.Loop 2 [Command.Wait 5]) s0 (Except.ok (), s0) ↔
      IterN envOkAll 2 [Command.Wait 5] s0 (Except.ok (), s0)) ∧
    Execs envOkAll (Command.Loop 2 []) s0 (Except.ok (), s0) :=
  ⟨by decide,
   C1_loop_positive_executes_body_n_times.1 envOkAll 2 [Command.Wait 5] s0
     (Except.ok (), s0) (by decide),
   C1_loop_positive_executes_body_n_times.2.1 envOkAll 2 s0 (by decide)⟩

/-- C2 counterexample: executing Loop(0, body) with a child command whose
backend call fails terminates, propagating the error out of the loop (the
question-mark operator inside the infinite loop exits it), so Loop(0, ...)
is not free of exit conditions: a child failure ends it. -/
theorem C2_counterexample :
    executeFuel envFailAll 3 (Command.Loop 0 [Command.SetMousePos 0 0]) s0 =
      some (Except.error (ExecError.backendError 0), ⟨1, []⟩) := by
  decide

/-- C2 amended: Loop(0, body) executes body in order repeatedly and never
terminates as long as every execution of the body succeeds; but if an
execution of the body fails, the error propagates and the loop terminates
with that error. -/
theorem C2_loop_zero_forever_unless_child_fails :
    (∀ (env : Env) (body : List Command) (s : BackendState),
      (∀ s' out, ExecsSeq env body s' out → ∃ s'', out = (Except.ok (), s'')) →
      ∀ out, ¬ Execs env (Command.Loop 0 body) s out) ∧
    (∀ (env : Env) (body : List Command) (s : BackendState) e s1,
      ExecsSeq env body s (Except.error e, s1) →
      Execs env (Command.Loop 0 body) s (Except.error e, s1)) := by
  constructor
  · intro env body s hok out ⟨fuel, h⟩
    induction fuel generalizing s with
    | zero => simp [executeFuel] at h
    | succ f ih =>
      rw [executeFuel] at h
      cases hs : execSeq env f body s with
      | none => rw [hs] at h; simp at h
      | some r =>
        obtain ⟨r1, s1⟩ := r
        rw [hs] at h
        cases r1 with
        | error e =>
          obtain ⟨s'', hcontra⟩ := hok s (Except.error e, s1) ⟨f, hs⟩
          simp at hcontra
        | ok u =>
          simp at h
          exact ih s1 h
  · intro env body s e s1 ⟨f, hs⟩
    exact ⟨f + 1, by rw [executeFuel, hs]⟩

theorem C2_witness :
    (¬ Execs envOkAll (Command.Loop 0 []) s0 (Except.ok (), s0)) ∧
    Execs envFailAll (Command.Loop 0 [Command.SetMousePos 0 0]) s0
      (Except.error (ExecError.backendError 0), ⟨1, []⟩) :=
  ⟨C2_loop_zero_forever_unless_child_fails.1 envOkAll [] s0
    (fun s' out hout => by
      obtain ⟨fuel, h⟩ := hout
      match fuel with
      | 0 => simp [execSeq] at h
      | f + 1 =>
        rw [execSeq] at h
        exact ⟨s', by simpa using h.symm⟩)
    (Except.ok (), s0),
   C2_loop_zero_forever_unless_child_fails.2 envFailAll [Command.SetMousePos 0 0] s0
     (ExecError.backendError 0) ⟨1, []⟩ ⟨2, by decide⟩⟩

theorem loop_zero_nil_none (env : Env) : ∀ fuel s,
    executeFuel env fuel (Command.Loop 0 []) s = none := by
  intro fuel
  induction fuel with
  | zero => intro s; rfl
  | succ f ih =>
    intro s
    rw [executeFuel]
    match f, ih with
    | 0, _ => rfl
    | g + 1, ih => simpa [execSeq] using ih s

theorem runIters_nil (env : Env) : ∀ fuel k s out,
    runIters env fuel k [] s = some out → out = (Except.ok (), s) := by
  intro fuel
  induction fuel with
  | zero => intro k s out h; simp [runIters] at h
  | succ f ih =>
    intro k s out h
    match k with
    | 0 => simpa [runIters] using h.symm
    | j + 1 =>
      rw [runIters] at h
      match f, ih, h with
      | 0, _, h => simp [execSeq] at h
      | g + 1, ih, h =>
        rw [execSeq] at h
        simp at h
        exact ih j s out h

/-- C10: Wait(ms) always succeeds immediately: no backend call is made, the
backend state is untouched, and no error can arise, for every environment;
Loop with an empty body never produces an error either (it either succeeds
or, for count 0, never terminates); and every other command variant admits
an environment and payload under which it fails with a BackendError. -/
theorem C10_wait_always_succeeds :
    (∀ (env : Env) (fuel ms : Nat) (s : BackendState),
      executeFuel env (fuel + 1) (Command.Wait ms) s = some (Except.ok (), s)) ∧
    (∀ (env : Env) (fuel n : Nat) (s : BackendState) out,
      executeFuel env fuel (Command.Loop n []) s = some out → out = (Except.ok (), s)) ∧
    executeFuel envFailAll 1 Command.GetMousePos s0 =
      some (Except.error (ExecError.backendError 0), ⟨1, []⟩) ∧
    executeFuel envFailAll 1 (Command.SetMousePos 0 0) s0 =
      some (Except.error (ExecError.backendError 0), ⟨1, []⟩) ∧
    executeFuel envFailAll 1 Command.LeftClick s0 =
      some (Except.error (ExecError.backendError 0), ⟨1, []⟩) ∧
    executeFuel envFailAll 1 Command.MiddleClick s0 =
      some (Except.error (ExecError.backendError 0), ⟨1, []⟩) ∧
    executeFuel envFailAll 1 Command.RightClick s0 =
      some (Except.error (ExecError.backendError 0), ⟨1, []⟩) ∧
    executeFuel envFailAll 1 (Command.PressKey Key.A) s0 =
      some (Except.error (ExecError.backendError 0), ⟨1, []⟩) ∧
    executeFuel envFailAll 1 (Command.PressKeyCombo [Key.A]) s0 =
      some (Except.error (ExecError.backendError 0), ⟨1, []⟩) ∧
    executeFuel envFailAll 1 (Command.TextInput "a") s0 =
      some (Except.error (ExecError.backendError 0), ⟨1, []⟩) ∧
    executeFuel envFailAll 4 (Command.Loop 1 [Command.LeftClick]) s0 =
      some (Except.error (ExecError.backendError 0), ⟨1, []⟩) := by
  refine ⟨fun env fuel ms s => rfl, fun env fuel n s out h => ?_,
    by decide, by decide, by decide, by decide, by decide, by decide, by decide,
    by decide, by decide⟩
  match n with
  | 0 => rw [loop_zero_nil_none env fuel s] at h; cases h
  | m + 1 =>
    match fuel with
    | 0 => simp [executeFuel] at h
    | f + 1 =>
      rw [executeFuel] at h
      exact runIters_nil env f (m + 1) s out h

theorem C10_witness :
    executeFuel envOkAll 1 (Command.Wait 250) s0 = some (Except.ok (), s0) ∧
    ((Except.ok (), s0) : Except ExecError Unit × BackendState) = (Except.ok (), s0) :=
  ⟨C10_wait_always_succeeds.1 envOkAll 0 250 s0,
   C10_wait_always_succeeds.2.1 envOkAll 3 1 s0 (Except.ok (), s0)
     (by decide)⟩

theorem downAll_ok (env : Env) (hR : ∀ n, env.responds n = true) : ∀ keys s,
    downAll env keys s =
      (Except.ok (), ⟨s.calls + keys.length,
        s.trace ++ keys.map (fun k => Event.keyDown (toCode k))⟩) := by
  intro keys
  induction keys with
  | nil => intro s; simp [downAll]
  | cons k rest ih =>
    intro s
    rw [downAll, key_down, bcall, hR s.calls]
    simp only [if_true]
    rw [ih]
    simp [Nat.add_comm, Nat.add_assoc, Nat.add_left_comm]

theorem upAll_ok (env : Env) (hR : ∀ n, env.responds n = true) : ∀ keys s,
    upAll env keys s =
      (Except.ok (), ⟨s.calls + keys.length,
        s.trace ++ keys.map (fun k => Event.keyUp (toCode k))⟩) := by
  intro keys
  induction keys with
  | nil => intro s; simp [upAll]
  | cons k rest ih =>
    intro s
    rw [upAll, key_up, bcall, hR s.calls]
    simp only [if_true]
    rw [ih]
    simp [Nat.add_comm, Nat.add_assoc, Nat.add_left_comm]

/-- C3: when all backend calls succeed, executing PressKeyCombo(keys) for a
non-empty key set issues a key-down event for every key, in the set's
iteration order, and only then a key-up event for every key: the trace
grows by the block of all down events followed by the block of all up
events, so for any iteration ordering every down event precedes every up
event. -/
theorem C3_combo_downs_before_ups (env : Env) (keys : List Key) (s : BackendState)
    (fuel : Nat) (hR : ∀ n, env.responds n = true) (_hne : keys ≠ []) :
    executeFuel env (fuel + 1) (Command.PressKeyCombo keys) s =
      some (Except.ok (), ⟨s.calls + 2 * keys.length,
        s.trace ++ (keys.map (fun k => Event.keyDown (toCode k)) ++
          keys.map (fun k => Event.keyUp (toCode k)))⟩) := by
  rw [executeFuel, press_key_combo, downAll_ok env hR keys s]
  dsimp only
  rw [upAll_ok env hR keys]
  simp only [List.length_map, List.append_assoc]
  have : s.calls + keys.length + keys.length = s.calls + 2 * keys.length := by omega
  rw [this]

theorem C3_witness :
    (∀ n, envOkAll.responds n = true) ∧
    ([Key.Shift, Key.A] ≠ ([] : List Key)) ∧
    executeFuel envOkAll 1 (Command.PressKeyCombo [Key.Shift, Key.A]) s0 =
      some (Except.ok (), ⟨0 + 2 * 2,
        [] ++ ([Key.Shift, Key.A].map (fun k => Event.keyDown (toCode k)) ++
          [Key.Shift, Key.A].map (fun k => Event.keyUp (toCode k)))⟩) :=
  ⟨fun _ => rfl, by decide,
   C3_combo_downs_before_ups envOkAll [Key.Shift, Key.A] s0 0 (fun _ => rfl) (by decide)⟩

set_option maxRecDepth 4000 in
theorem fromCode_unknown (n : Int) (hno : ¬ ∃ k : Key, toCode k = n) :
    fromCode n = Key.Unassigned := by
  unfold fromCode
  rw [if_neg (fun h => hno ⟨Key.LeftButton, by subst h; rfl⟩)]
  rw [if_neg (fun h => hno ⟨Key.RightButton, by subst h; rfl⟩)]
  rw [if_neg (fun h => hno ⟨Key.Cancel, by subst h; rfl⟩)]
  rw [if_neg (fun h => hno ⟨Key.MiddleButton, by subst h; rfl⟩)]
  rw [if_neg (fun h => hno ⟨Key.XButton1, by subst h; rfl⟩)]
  rw [if_neg (fun h => hno ⟨Key.XButton2, by subst h; rfl⟩)]
  rw [if_neg (fun h => hno ⟨Key.Back, by subst h; rfl⟩)]
  rw [if_neg (fun h => hno ⟨Key.Tab, by subst h; rfl⟩)]
  rw [if_neg (fun h => hno ⟨Key.Clear, by subst h; rfl⟩)]
  rw [if_neg (fun h => hno ⟨Key.Return, by subst h; rfl⟩)]
  rw [if_neg (fun h => hno ⟨Key.Shift, by subst h; rfl⟩)]
  rw [if_neg (fun h => hno ⟨Key.Control, by subst h; rfl⟩)]
  rw [if_neg (fun h => hno ⟨Key.Menu, by subst h; rfl⟩)]
  rw [if_neg (fun h => hno ⟨Key.Pause, by subst h; rfl⟩)]
  rw [if_neg (fun h => hno ⟨Key.Capital, by subst h; rfl⟩)]
  rw [if_neg (fun h => hno ⟨Key.Escape, by subst h; rfl⟩)]
  rw [if_neg (fun h => hno ⟨Key.Convert, by subst h; rfl⟩)]
  rw [if_neg (fun h => hno ⟨Key.NonConvert, by subst h; rfl⟩)]
  rw [if_neg (fun h => hno ⟨Key.Accept, by subst h; rfl⟩)]
  rw [if_neg (fun h => hno ⟨Key.ModeChange, by subst h; rfl⟩)]
  rw [if_neg (fun h => hno ⟨Key.Space, by subst h; rfl⟩)]
  rw [if_neg (fun h => hno ⟨Key.Prior, by subst h; rfl⟩)]
  rw [if_neg (fun h => hno ⟨Key.Next, by subst h; rfl⟩)]
  rw [if_neg (fun h => hno ⟨Key.End, by subst h; rfl⟩)]
  rw [if_neg (fun h => hno ⟨Key.Home, by subst h; rfl⟩)]
  rw [if_neg (fun h => hno ⟨Key.Left, by subst h; rfl⟩)]
  rw [if_neg (fun h => hno ⟨Key.Up, by subst h; rfl⟩)]
  rw [if_neg (fun h => hno ⟨Key.Right, by subst h; rfl⟩)]
  rw [if_neg (fun h => hno ⟨Key.Down, by subst h; rfl⟩)]
  rw [if_neg (fun h => hno ⟨Key.Select, by subst h; rfl⟩)]
  rw [if_neg (fun h => hno ⟨Key.Print, by subst h; rfl⟩)]
  rw [if_neg (fun h => hno ⟨Key.Execute, by subst h; rfl⟩)]
  rw [if_neg (fun h => hno ⟨Key.Snapshot, by subst h; rfl⟩)]
  rw [if_neg (fun h => hno ⟨Key.Insert, by subst h; rfl⟩)]
  rw [if_neg (fun h => hno ⟨Key.Delete, by subst h; rfl⟩)]
  rw [if_neg (fun h => hno ⟨Key.Help, by subst h; rfl⟩)]
  rw [if_neg (fun h => hno ⟨Key.Key0, by subst h; rfl⟩)]
  rw [if_neg (fun h => hno ⟨Key.Key1, by subst h; rfl⟩)]
  rw [if_neg (fun h => hno ⟨Key.Key2, by subst h; rfl⟩)]
  rw [if_neg (fun h => hno ⟨Key.Key3, by subst h; rfl⟩)]
  rw [if_neg (fun h => hno ⟨Key.Key4, by subst h; rfl⟩)]
  rw [if_neg (fun h => hno ⟨Key.Key5, by subst h; rfl⟩)]
  rw [if_neg (fun h => hno ⟨Key.Key6, by subst h; rfl⟩)]
  rw [if_neg (fun h => hno ⟨Key.Key7, by subst h; rfl⟩)]
  rw [if_neg (fun h => hno ⟨Key.Key8, by subst h; rfl⟩)]
  rw [if_neg (fun h => hno ⟨Key.Key9, by subst h; rfl⟩)]
  rw [if_neg (fun h => hno ⟨Key.A, by subst h; rfl⟩)]
  rw [if_neg (fun h => hno ⟨Key.B, by subst h; rfl⟩)]
  rw [if_neg (fun h => hno ⟨Key.C, by subst h; rfl⟩)]
  rw [if_neg (fun h => hno ⟨Key.D, by subst h; rfl⟩)]
  rw [if_neg (fun h => hno ⟨Key.E, by subst h; rfl⟩)]
  rw [if_neg (fun h => hno ⟨Key.F, by subst h; rfl⟩)]
  rw [if_neg (fun h => hno ⟨Key.G, by subst h; rfl⟩)]
  rw [if_neg (fun h => hno ⟨Key.H, by subst h; rfl⟩)]
  rw [if_neg (fun h => hno ⟨Key.I, by subst h; rfl⟩)]
  rw [if_neg (fun h => hno ⟨Key.J, by subst h; rfl⟩)]
  rw [if_neg (fun h => hno ⟨Key.K, by subst h; rfl⟩)]
  rw [if_neg (fun h => hno ⟨Key.L, by subst h; rfl⟩)]
  rw [if_neg (fun h => hno ⟨Key.M, by subst h; rfl⟩)]
  rw [if_neg (fun h => hno ⟨Key.N, by subst h; rfl⟩)]
  rw [if_neg (fun h => hno ⟨Key.O, by subst h; rfl⟩)]
  rw [if_neg (fun h => hno ⟨Key.P, by subst h; rfl⟩)]
  rw [if_neg (fun h => hno ⟨Key.Q, by subst h; rfl⟩)]
  rw [if_neg (fun h => hno ⟨Key.R, by subst h; rfl⟩)]
  rw [if_neg (fun h => hno ⟨Key.S, by subst h; rfl⟩)]
  rw [if_neg (fun h => hno ⟨Key.T, by subst h; rfl⟩)]
  rw [if_neg (fun h => hno ⟨Key.U, by subst h; rfl⟩)]
  rw [if_neg (fun h => hno ⟨Key.V, by subst h; rfl⟩)]
  rw [if_neg (fun h => hno ⟨Key.W, by subst h; rfl⟩)]
  rw [if_neg (fun h => hno ⟨Key.X, by subst h; rfl⟩)]
  rw [if_neg (fun h => hno ⟨Key.Y, by subst h; rfl⟩)]
  rw [if_neg (fun h => hno ⟨Key.Z, by subst h; rfl⟩)]
  rw [if_neg (fun h => hno ⟨Key.LeftWindows, by subst h; rfl⟩)]
  rw [if_neg (fun h => hno ⟨Key.RightWindows, by subst h; rfl⟩)]
  rw [if_neg (fun h => hno ⟨Key.Applications, by subst h; rfl⟩)]
  rw [if_neg (fun h => hno ⟨Key.Sleep, by subst h; rfl⟩)]
  rw [if_neg (fun h => hno ⟨Key.Numpad0, by subst h; rfl⟩)]
  rw [if_neg (fun h => hno ⟨Key.Numpad1, by subst h; rfl⟩)]
  rw [if_neg (fun h => hno ⟨Key.Numpad2, by subst h; rfl⟩)]
  rw [if_neg (fun h => hno ⟨Key.Numpad3, by subst h; rfl⟩)]
  rw [if_neg (fun h => hno ⟨Key.Numpad4, by subst h; rfl⟩)]
  rw [if_neg (fun h => hno ⟨Key.Numpad5, by subst h; rfl⟩)]
  rw [if_neg (fun h => hno ⟨Key.Numpad6, by subst h; rfl⟩)]
  rw [if_neg (fun h => hno ⟨Key.Numpad7, by subst h; rfl⟩)]
  rw [if_neg (fun h => hno ⟨Key.Numpad8, by subst h; rfl⟩)]
  rw [if_neg (fun h => hno ⟨Key.Numpad9, by subst h; rfl⟩)]
  rw [if_neg (fun h => hno ⟨Key.Multiply, by subst h; rfl⟩)]
  rw [if_neg (fun h => hno ⟨Key.Add, by subst h; rfl⟩)]
  rw [if_neg (fun h => hno ⟨Key.Separator, by subst h; rfl⟩)]
  rw [if_neg (fun h => hno ⟨Key.Subtract, by subst h; rfl⟩)]
  rw [if_neg (fun h => hno ⟨Key.Decimal, by subst h; rfl⟩)]
  rw [if_neg (fun h => hno ⟨Key.Divide, by subst h; rfl⟩)]
  rw [if_neg (fun h => hno ⟨Key.F1, by subst h; rfl⟩)]
  rw [if_neg (fun h => hno ⟨Key.F2, by subst h; rfl⟩)]
  rw [if_neg (fun h => hno ⟨Key.F3, by subst h; rfl⟩)]
  rw [if_neg (fun h => hno ⟨Key.F4, by subst h; rfl⟩)]
  rw [if_neg (fun h => hno ⟨Key.F5, by subst h; rfl⟩)]
  rw [if_neg (fun h => hno ⟨Key.F6, by subst h; rfl⟩)]
  rw [if_neg (fun h => hno ⟨Key.F7, by subst h; rfl⟩)]
  rw [if_neg (fun h => hno ⟨Key.F8, by subst h; rfl⟩)]
  rw [if_neg (fun h => hno ⟨Key.F9, by subst h; rfl⟩)]
  rw [if_neg (fun h => hno ⟨Key.F10, by subst h; rfl⟩)]
  rw [if_neg (fun h => hno ⟨Key.F11, by subst h; rfl⟩)]
  rw [if_neg (fun h => hno ⟨Key.F12, by subst h; rfl⟩)]
  rw [if_neg (fun h => hno ⟨Key.F13, by subst h; rfl⟩)]
  rw [if_neg (fun h => hno ⟨Key.F14, by subst h; rfl⟩)]
  rw [if_neg (fun h => hno ⟨Key.F15, by subst h; rfl⟩)]
  rw [if_neg (fun h => hno ⟨Key.F16, by subst h; rfl⟩)]
  rw [if_neg (fun h => hno ⟨Key.F17, by subst h; rfl⟩)]
  rw [if_neg (fun h => hno ⟨Key.F18, by subst h; rfl⟩)]
  rw [if_neg (fun h => hno ⟨Key.F19, by subst h; rfl⟩)]
  rw [if_neg (fun h => hno ⟨Key.F20, by subst h; rfl⟩)]
  rw [if_neg (fun h => hno ⟨Key.F21, by subst h; rfl⟩)]
  rw [if_neg (fun h => hno ⟨Key.F22, by subst h; rfl⟩)]
  rw [if_neg (fun h => hno ⟨Key.F23, by subst h; rfl⟩)]
  rw [if_neg (fun h => hno ⟨Key.F24, by subst h; rfl⟩)]
  rw [if_neg (fun h => hno ⟨Key.Numlock, by subst h; rfl⟩)]
  rw [if_neg (fun h => hno ⟨Key.Scroll, by subst h; rfl⟩)]
  rw [if_neg (fun h => hno ⟨Key.Unassigned, by subst h; rfl⟩)]
  rw [if_neg (fun h => hno ⟨Key.LeftShift, by subst h; rfl⟩)]
  rw [if_neg (fun h => hno ⟨Key.RightShift, by subst h; rfl⟩)]
  rw [if_neg (fun h => hno ⟨Key.LeftControl, by subst h; rfl⟩)]
  rw [if_neg (fun h => hno ⟨Key.RightControl, by subst h; rfl⟩)]
  rw [if_neg (fun h => hno ⟨Key.LeftMenu, by subst h; rfl⟩)]
  rw [if_neg (fun h => hno ⟨Key.RightMenu, by subst h; rfl⟩)]
  rw [if_neg (fun h => hno ⟨Key.BrowserBack, by subst h; rfl⟩)]
  rw [if_neg (fun h => hno ⟨Key.BrowserForward, by subst h; rfl⟩)]
  rw [if_neg (fun h => hno ⟨Key.BrowserRefresh, by subst h; rfl⟩)]
  rw [if_neg (fun h => hno ⟨Key.BrowserStop, by subst h; rfl⟩)]
  rw [if_neg (fun h => hno ⟨Key.BrowserSearch, by subst h; rfl⟩)]
  rw [if_neg (fun h => hno ⟨Key.BrowserFavorites, by subst h; rfl⟩)]
  rw [if_neg (fun h => hno ⟨Key.BrowserHome, by subst h; rfl⟩)]
  rw [if_neg (fun h => hno ⟨Key.VolumeMute, by subst h; rfl⟩)]
  rw [if_neg (fun h => hno ⟨Key.VolumeDown, by subst h; rfl⟩)]
  rw [if_neg (fun h => hno ⟨Key.VolumeUp, by subst h; rfl⟩)]
  rw [if_neg (fun h => hno ⟨Key.MediaNextTrack, by subst h; rfl⟩)]
  rw [if_neg (fun h => hno ⟨Key.MediaPrevTrack, by subst h; rfl⟩)]
  rw [if_neg (fun h => hno ⟨Key.MediaStop, by subst h; rfl⟩)]
  rw [if_neg (fun h => hno ⟨Key.MediaPlayPause, by subst h; rfl⟩)]
  rw [if_neg (fun h => hno ⟨Key.LaunchMail, by subst h; rfl⟩)]
  rw [if_neg (fun h => hno ⟨Key.LaunchMediaSelect, by subst h; rfl⟩)]
  rw [if_neg (fun h => hno ⟨Key.LaunchApp1, by subst h; rfl⟩)]
  rw [if_neg (fun h => hno ⟨Key.LaunchApp2, by subst h; rfl⟩)]
  rw [if_neg (fun h => hno ⟨Key.Oem1, by subst h; rfl⟩)]
  rw [if_neg (fun h => hno ⟨Key.OemPlus, by subst h; rfl⟩)]
  rw [if_neg (fun h => hno ⟨Key.OemComma, by subst h; rfl⟩)]
  rw [if_neg (fun h => hno ⟨Key.OemMinus, by subst h; rfl⟩)]
  rw [if_neg (fun h => hno ⟨Key.OemPeriod, by subst h; rfl⟩)]
  rw [if_neg (fun h => hno ⟨Key.Oem2, by subst h; rfl⟩)]
  rw [if_neg (fun h => hno ⟨Key.Oem3, by subst h; rfl⟩)]
  rw [if_neg (fun h => hno ⟨Key.Oem4, by subst h; rfl⟩)]
  rw [if_neg (fun h => hno ⟨Key.Oem5, by subst h; rfl⟩)]
  rw [if_neg (fun h => hno ⟨Key.Oem6, by subst h; rfl⟩)]
  rw [if_neg (fun h => hno ⟨Key.Oem7, by subst h; rfl⟩)]
  rw [if_neg (fun h => hno ⟨Key.Oem8, by subst h; rfl⟩)]
  rw [if_neg (fun h => hno ⟨Key.Oem102, by subst h; rfl⟩)]
  rw [if_neg (fun h => hno ⟨Key.ProcessKey, by subst h; rfl⟩)]
  rw [if_neg (fun h => hno ⟨Key.Packet, by subst h; rfl⟩)]
  rw [if_neg (fun h => hno ⟨Key.Attn, by subst h; rfl⟩)]
  rw [if_neg (fun h => hno ⟨Key.CrSel, by subst h; rfl⟩)]
  rw [if_neg (fun h => hno ⟨Key.ExSel, by subst h; rfl⟩)]
  rw [if_neg (fun h => hno ⟨Key.EraseEOF, by subst h; rfl⟩)]
  rw [if_neg (fun h => hno ⟨Key.Play, by subst h; rfl⟩)]
  rw [if_neg (fun h => hno ⟨Key.Zoom, by subst h; rfl⟩)]
  rw [if_neg (fun h => hno ⟨Key.PA1, by subst h; rfl⟩)]
  rw [if_neg (fun h => hno ⟨Key.OemClear, by subst h; rfl⟩)]

set_option maxRecDepth 4000 in
/-- C6: converting any Key to its numeric code and back yields the same
Key, and the integer-to-Key conversion is total: any integer is mapped
either to Unassigned or to the Key whose code it is. -/
theorem C6_key_code_roundtrip :
    (∀ k : Key, fromCode (toCode k) = k) ∧
    (∀ n : Int, fromCode n = Key.Unassigned ∨ toCode (fromCode n) = n) := by
  have rt : ∀ k : Key, fromCode (toCode k) = k := by
    intro k
    cases k <;> rfl
  refine ⟨rt, fun n => ?_⟩
  rcases Classical.em (∃ k : Key, toCode k = n) with ⟨k, hk⟩ | hno
  · right
    rw [← hk, rt k]
  · left
    exact fromCode_unknown n hno

theorem char_ofNat_toNat (c : Char) (h : c.toNat < 128) : Char.ofNat c.toNat = c := by
  have hv : c.toNat.isValidChar := Or.inl (by omega)
  apply Char.eq_of_val_eq
  rw [Char.ofNat, dif_pos hv]
  simp [Char.ofNatAux, UInt32.ofNat']
  rfl

theorem fromChar_default (c : Char) (h1 : ¬ c.isAlpha = true)
    (h2 : ¬ c.isDigit = true) (h3 : c ≠ ' ') : fromChar c = Key.Unassigned := by
  unfold fromChar
  rw [if_neg h3]
  rw [if_neg (fun h => h1 (by rcases h with h | h <;> subst h <;> decide))]
  rw [if_neg (fun h => h1 (by rcases h with h | h <;> subst h <;> decide))]
  rw [if_neg (fun h => h1 (by rcases h with h | h <;> subst h <;> decide))]
  rw [if_neg (fun h => h1 (by rcases h with h | h <;> subst h <;> decide))]
  rw [if_neg (fun h => h1 (by rcases h with h | h <;> subst h <;> decide))]
  rw [if_neg (fun h => h1 (by rcases h with h | h <;> subst h <;> decide))]
  rw [if_neg (fun h => h1 (by rcases h with h | h <;> subst h <;> decide))]
  rw [if_neg (fun h => h1 (by rcases h with h | h <;> subst h <;> decide))]
  rw [if_neg (fun h => h1 (by rcases h with h | h <;> subst h <;> decide))]
  rw [if_neg (fun h => h1 (by rcases h with h | h <;> subst h <;> decide))]
  rw [if_neg (fun h => h1 (by rcases h with h | h <;> subst h <;> decide))]
  rw [if_neg (fun h => h1 (by rcases h with h | h <;> subst h <;> decide))]
  rw [if_neg (fun h => h1 (by rcases h with h | h <;> subst h <;> decide))]
  rw [if_neg (fun h => h1 (by rcases h with h | h <;> subst h <;> decide))]
  rw [if_neg (fun h => h1 (by rcases h with h | h <;> subst h <;> decide))]
  rw [if_neg (fun h => h1 (by rcases h with h | h <;> subst h <;> decide))]
  rw [if_neg (fun h => h1 (by rcases h with h | h <;> subst h <;> decide))]
  rw [if_neg (fun h => h1 (by rcases h with h | h <;> subst h <;> decide))]
  rw [if_neg (fun h => h1 (by rcases h with h | h <;> subst h <;> decide))]
  rw [if_neg (fun h => h1 (by rcases h with h | h <;> subst h <;> decide))]
  rw [if_neg (fun h => h1 (by rcases h with h | h <;> subst h <;> decide))]
  rw [if_neg (fun h => h1 (by rcases h with h | h <;> subst h <;> decide))]
  rw [if_neg (fun h => h1 (by rcases h with h | h <;> subst h <;> decide))]
  rw [if_neg (fun h => h1 (by rcases h with h | h <;> subst h <;> decide))]
  rw [if_neg (fun h => h1 (by rcases h with h | h <;> subst h <;> decide))]
  rw [if_neg (fun h => h1 (by rcases h with h | h <;> subst h <;> decide))]
  rw [if_neg (fun h => h2 (by subst h; decide))]
  rw [if_neg (fun h => h2 (by subst h; decide))]
  rw [if_neg (fun h => h2 (by subst h; decide))]
  rw [if_neg (fun h => h2 (by subst h; decide))]
  rw [if_neg (fun h => h2 (by subst h; decide))]
  rw [if_neg (fun h => h2 (by subst h; decide))]
  rw [if_neg (fun h => h2 (by subst h; decide))]
  rw [if_neg (fun h => h2 (by subst h; decide))]
  rw [if_neg (fun h => h2 (by subst h; decide))]
  rw [if_neg (fun h => h2 (by subst h; decide))]

theorem fromChar_ci_bounded : ∀ n : Nat, n < 128 →
    ((Char.ofNat n).isAlpha = true →
      fromChar (Char.ofNat n) = fromChar (Char.ofNat n).toLower ∧
      fromChar (Char.ofNat n).toUpper = fromChar (Char.ofNat n)) := by
  decide

theorem char_isAlpha_range (c : Char) (h : c.isAlpha = true) :
    65 ≤ c.toNat ∧ c.toNat ≤ 90 ∨ 97 ≤ c.toNat ∧ c.toNat ≤ 122 := by
  simp [Char.isAlpha, Char.isUpper, Char.isLower] at h
  rcases h with ⟨ha, hb⟩ | ⟨ha, hb⟩
  · left
    exact ⟨ha, hb⟩
  · right
    exact ⟨ha, hb⟩

/-- C5 counterexample: the space character is neither an ASCII letter nor a
digit, yet from_char maps it to the Space key, not to Unassigned. -/
theorem C5_counterexample :
    (¬ (Char.isAlpha ' ' = true ∨ Char.isDigit ' ' = true)) ∧
    fromChar ' ' ≠ Key.Unassigned := by
  decide

/-- C5 amended: from_char is total (it is a function on all of Char); on
ASCII letters it is case-insensitive (a letter maps to the same Key as its
lowercase, and its uppercase maps to the same Key as the letter itself);
and every character that is not an ASCII letter, not an ASCII digit and
not the space character ' ' (which the source maps to the Space key) maps
to Unassigned. -/
theorem C5_fromChar_case_insensitive_and_default :
    (∀ c : Char, c.isAlpha = true →
      fromChar c = fromChar c.toLower ∧ fromChar c.toUpper = fromChar c) ∧
    (∀ c : Char, ¬ c.isAlpha = true → ¬ c.isDigit = true → c ≠ ' ' →
      fromChar c = Key.Unassigned) := by
  constructor
  · intro c h
    have hr := char_isAlpha_range c h
    have hlt : c.toNat < 128 := by omega
    have hc := char_ofNat_toNat c hlt
    have hb := fromChar_ci_bounded c.toNat hlt (by rw [hc]; exact h)
    rw [hc] at hb
    exact hb
  · exact fromChar_default

theorem C5_witness :
    (Char.isAlpha 'a' = true ∧
      (fromChar 'a' = fromChar 'a'.toLower ∧ fromChar 'a'.toUpper = fromChar 'a')) ∧
    (¬ Char.isAlpha '!' = true ∧ ¬ Char.isDigit '!' = true ∧ '!' ≠ ' ' ∧
      fromChar '!' = Key.Unassigned) :=
  ⟨⟨by decide, C5_fromChar_case_insensitive_and_default.1 'a' (by decide)⟩,
   ⟨by decide, by decide, by decide,
    C5_fromChar_case_insensitive_and_default.2 '!' (by decide) (by decide) (by decide)⟩⟩

theorem execSeq_det (env : Env) {f1 f2 : Nat} {cmds : List Command} {s : BackendState}
    {o1 o2 : Except ExecError Unit × BackendState}
    (h1 : execSeq env f1 cmds s = some o1) (h2 : execSeq env f2 cmds s = some o2) :
    o1 = o2 := by
  have h1m := execSeq_mono env (Nat.le_max_left f1 f2) h1
  have h2m := execSeq_mono env (Nat.le_max_right f1 f2) h2
  rw [h1m] at h2m
  exact Option.some.inj h2m

theorem textLoop_as_seq (env : Env) : ∀ cs s,
    execSeq env (cs.length + 1) (cs.map (charCmd env)) s = some (textLoop env cs s) := by
  intro cs
  induction cs with
  | nil => intro s; rfl
  | cons c rest ih =>
    intro s
    show execSeq env (rest.length + 1 + 1) (charCmd env c :: rest.map (charCmd env)) s = _
    rw [execSeq, textLoop]
    by_cases hu : env.upper c
    · rw [charCmd, if_pos hu, if_pos hu]
      rw [executeFuel]
      cases hr : press_key_combo env [Key.Shift, fromChar c] s with
      | mk r1 s1 =>
        cases r1 with
        | error e => simp
        | ok u => simpa using ih s1
    · rw [charCmd, if_neg hu, if_neg hu]
      rw [executeFuel]
      cases hr : press_key env (toCode (fromChar c)) s with
      | mk r1 s1 =>
        cases r1 with
        | error e => simp
        | ok u => simpa using ih s1

/-- C7: executing TextInput(text) processes the characters in order and is
exactly equivalent to executing, per character, a
PressKeyCombo([Shift, mapped key]) when the character is uppercase and a
PressKey(mapped key) otherwise, unmapped characters degrading to the
Unassigned key; in particular TextInput("Ab1") produces the chord
Shift+A, then the press of B, then the press of the 1 key. -/
theorem C7_text_input_char_by_char :
    (∀ (env : Env) (text : String) (s : BackendState) out,
      Execs env (Command.TextInput text) s out ↔
        ExecsSeq env (text.data.map (charCmd env)) s out) ∧
    executeFuel envOkAll 1 (Command.TextInput "Ab1") s0 =
      some (Except.ok (), ⟨8, [Event.keyDown 16, Event.keyDown 65, Event.keyUp 16,
        Event.keyUp 65, Event.keyDown 66, Event.keyUp 66, Event.keyDown 49,
        Event.keyUp 49]⟩) := by
  refine ⟨fun env text s out => ?_, by decide⟩
  constructor
  · rintro ⟨fuel, h⟩
    match fuel with
    | 0 => simp [executeFuel] at h
    | f + 1 =>
      rw [executeFuel] at h
      refine ⟨text.data.length + 1, ?_⟩
      rw [textLoop_as_seq env text.data s]
      exact h
  · rintro ⟨fuel, h⟩
    have hl := textLoop_as_seq env text.data s
    have := execSeq_det env h hl
    subst this
    exact ⟨1, rfl⟩

/-- C8 counterexample: when the cursor query fails, GetMousePos does abort
the rest of the sequence: the question-mark operator propagates the error,
so the following LeftClick is never executed (no mouse event in the
trace). -/
theorem C8_counterexample :
    execSeq envFailAll 3 [Command.GetMousePos, Command.LeftClick] s0 =
      some (Except.error (ExecError.backendError 0), ⟨1, []⟩) := by
  decide

/-- C8 amended: GetMousePos only queries the backend for the pointer
location and reports it (the report is a print side effect); when the
query succeeds the command succeeds, adds only the query event, and the
sequence continues with the remaining commands unaffected; but when the
query fails the error propagates and aborts the rest of the sequence like
any other backend error. -/
theorem C8_get_mouse_pos_control_flow :
    (∀ (env : Env) (fuel : Nat) (s : BackendState), env.responds s.calls = true →
      executeFuel env (fuel + 1) Command.GetMousePos s =
        some (Except.ok (), ⟨s.calls + 1, s.trace ++ [Event.getCursor]⟩)) ∧
    (∀ (env : Env) (fuel : Nat) (s : BackendState) (rest : List Command),
      env.responds s.calls = true →
      execSeq env (fuel + 2) (Command.GetMousePos :: rest) s =
        execSeq env (fuel + 1) rest ⟨s.calls + 1, s.trace ++ [Event.getCursor]⟩) ∧
    (∀ (env : Env) (fuel : Nat) (s : BackendState) (rest : List Command),
      env.responds s.calls = false →
      execSeq env (fuel + 2) (Command.GetMousePos :: rest) s =
        some (Except.error (ExecError.backendError s.calls), ⟨s.calls + 1, s.trace⟩)) := by
  refine ⟨fun env fuel s h => ?_, fun env fuel s rest h => ?_, fun env fuel s rest h => ?_⟩
  · rw [executeFuel, get_cursor_pos, bcall, h]
    rfl
  · rw [execSeq, executeFuel, get_cursor_pos, bcall, h]
    rfl
  · rw [execSeq, executeFuel, get_cursor_pos, bcall, h]
    rfl

theorem C8_witness :
    executeFuel envOkAll 1 Command.GetMousePos s0 =
      some (Except.ok (), ⟨0 + 1, [] ++ [Event.getCursor]⟩) ∧
    execSeq envFailAll 2 [Command.GetMousePos, Command.LeftClick] s0 =
      some (Except.error (ExecError.backendError 0), ⟨0 + 1, []⟩) :=
  ⟨C8_get_mouse_pos_control_flow.1 envOkAll 0 s0 rfl,
   C8_get_mouse_pos_control_flow.2.2 envFailAll 0 s0 [Command.LeftClick] rfl⟩

/-- C4 counterexample: with a backend whose first call fails, (a) a run
spawned through the logged branch logs the error but then still executes
the remaining commands of the sequence (the key press events of the
second command appear in the trace), so the failure does not abort the
macro's command sequence; and (b) the first run ever spawned for an index
goes through the unwrap branch, which panics the execution context on the
error and logs nothing. -/
theorem C4_counterexample :
    threadRunLogged envFailFirst 1 [Command.SetMousePos 0 0, Command.PressKey Key.A] s0 =
      some (⟨3, [Event.keyDown 65, Event.keyUp 65]⟩, [ExecError.backendError 0]) ∧
    threadRunUnwrap envFailFirst 1 [Command.SetMousePos 0 0, Command.PressKey Key.A] s0 =
      some (RunOutcome.panicked (ExecError.backendError 0), ⟨1, []⟩) := by
  decide

/-- C4 amended: when a command of a run fails with a BackendError, the
behaviour depends on which branch spawned the run. In the logged branch
(taken whenever a previous handle was recorded for the index), the error
is logged by the execution context and execution continues with the next
top-level command: only the failing command and the rest of its own
nested sequence are abandoned. In the unwrap branch (taken on the first
run ever spawned for an index), the failing command panics the execution
context, the remaining commands are dropped, and nothing is logged. -/
theorem C4_run_error_handling :
    (∀ (env : Env) (fuel : Nat) (c : Command) (rest : List Command) (s : BackendState) e s1,
      executeFuel env fuel c s = some (Except.error e, s1) →
      threadRunLogged env fuel (c :: rest) s =
        (threadRunLogged env fuel rest s1).map (fun p => (p.1, e :: p.2))) ∧
    (∀ (env : Env) (fuel : Nat) (c : Command) (rest : List Command) (s : BackendState) e s1,
      executeFuel env fuel c s = some (Except.error e, s1) →
      threadRunUnwrap env fuel (c :: rest) s = some (RunOutcome.panicked e, s1)) := by
  constructor
  · intro env fuel c rest s e s1 h
    rw [threadRunLogged, h]
    dsimp only
    cases hrest : threadRunLogged env fuel rest s1 with
    | none => rfl
    | some p =>
      obtain ⟨s2, logs⟩ := p
      rfl
  · intro env fuel c rest s e s1 h
    rw [threadRunUnwrap, h]

theorem C4_witness :
    threadRunLogged envFailAll 1 [Command.SetMousePos 0 0] s0 =
      (threadRunLogged envFailAll 1 [] (⟨1, []⟩ : BackendState)).map
        (fun p => (p.1, ExecError.backendError 0 :: p.2)) ∧
    threadRunUnwrap envFailAll 1 [Command.SetMousePos 0 0] s0 =
      some (RunOutcome.panicked (ExecError.backendError 0), ⟨1, []⟩) :=
  ⟨C4_run_error_handling.1 envFailAll 1 (Command.SetMousePos 0 0) [] s0
     (ExecError.backendError 0) ⟨1, []⟩ (by decide),
   C4_run_error_handling.2 envFailAll 1 (Command.SetMousePos 0 0) [] s0
     (ExecError.backendError 0) ⟨1, []⟩ (by decide)⟩

theorem lookup_insertThread_self : ∀ (l : List (Nat × Nat)) (idx id : Nat),
    lookupThread (insertThread l idx id) idx = some id := by
  intro l
  induction l with
  | nil => intro idx id; simp [insertThread, lookupThread]
  | cons hd tl ih =>
    intro idx id
    obtain ⟨i, v⟩ := hd
    rw [insertThread]
    by_cases hi : i = idx
    · rw [if_pos hi, lookupThread, if_pos rfl]
    · rw [if_neg hi, lookupThread, if_neg hi]
      exact ih idx id

theorem lookup_insertThread_ne : ∀ (l : List (Nat × Nat)) (idx id j : Nat), j ≠ idx →
    lookupThread (insertThread l idx id) j = lookupThread l j := by
  intro l
  induction l with
  | nil =>
    intro idx id j hj
    simp [insertThread, lookupThread]
    intro h
    exact absurd h.symm hj
  | cons hd tl ih =>
    intro idx id j hj
    obtain ⟨i, v⟩ := hd
    rw [insertThread]
    by_cases hi : i = idx
    · rw [if_pos hi, lookupThread, lookupThread, if_neg (by omega : ¬ idx = j), hi,
        if_neg (by omega : ¬ idx = j)]
    · rw [if_neg hi, lookupThread, lookupThread]
      by_cases hij : i = j
      · rw [if_pos hij, if_pos hij]
      · rw [if_neg hij, if_neg hij]
        exact ih idx id j hj

theorem spawnsOf_append (e1 e2 : List SchedEvent) :
    spawnsOf (e1 ++ e2) = spawnsOf e1 ++ spawnsOf e2 := by
  simp [spawnsOf]

theorem tickIndex_inv (f : Nat → Bool) (st : SchedState) (idx : Nat) (a : Bool)
    (hinv : SchedInv f st) : SchedInv f (tickIndex f st idx a) := by
  cases a with
  | false => simpa [tickIndex] using hinv
  | true =>
    rw [tickIndex]
    simp only [if_true]
    cases hl : lookupThread st.threads idx with
    | none =>
      intro p hp
      simp only [spawnsOf_append] at hp
      rcases List.mem_append.mp hp with hp | hp
      · rcases hinv p hp with hf | hlk
        · exact Or.inl hf
        · by_cases hpi : p.1 = idx
          · rw [hpi, hl] at hlk
            cases hlk
          · right
            rw [lookup_insertThread_ne st.threads idx st.nextId p.1 hpi]
            exact hlk
      · have hpe : p = (idx, st.nextId) := by simpa [spawnsOf] using hp
        right
        rw [hpe]
        exact lookup_insertThread_self st.threads idx st.nextId
    | some id =>
      dsimp only
      cases hf : f id with
      | true =>
        simp only [if_true]
        intro p hp
        simp only [spawnsOf_append] at hp
        rcases List.mem_append.mp hp with hp | hp
        · rcases hinv p hp with hpf | hlk
          · exact Or.inl hpf
          · by_cases hpi : p.1 = idx
            · rw [hpi, hl] at hlk
              have : p.2 = id := by cases hlk; rfl
              rw [this]
              exact Or.inl hf
            · right
              rw [lookup_insertThread_ne st.threads idx st.nextId p.1 hpi]
              exact hlk
        · have hpe : p = (idx, st.nextId) := by simpa [spawnsOf] using hp
          right
          rw [hpe]
          exact lookup_insertThread_self st.threads idx st.nextId
      | false =>
        rw [if_neg (by decide : ¬ false = true)]
        intro p hp
        simp only [spawnsOf_append] at hp
        rcases List.mem_append.mp hp with hp | hp
        · exact hinv p hp
        · simp [spawnsOf] at hp

theorem tickFrom_inv (f : Nat → Bool) : ∀ (acts : List Bool) (idx : Nat) (st : SchedState),
    SchedInv f st → SchedInv f (tickFrom f idx acts st) := by
  intro acts
  induction acts with
  | nil => intro idx st h; exact h
  | cons a rest ih =>
    intro idx st h
    rw [tickFrom]
    exact ih (idx + 1) (tickIndex f st idx a) (tickIndex_inv f st idx a h)

theorem schedInv_mono {f1 f2 : Nat → Bool} (hup : ∀ id, f1 id = true → f2 id = true)
    {st : SchedState} (h : SchedInv f1 st) : SchedInv f2 st := by
  intro p hp
  rcases h p hp with hf | hl
  · exact Or.inl (hup p.2 hf)
  · exact Or.inr hl

theorem schedRun_inv (fin : Nat → Nat → Bool)
    (hmono : ∀ t t' id, t ≤ t' → fin t id = true → fin t' id = true) :
    ∀ (acts : List (List Bool)) (t0 : Nat) (st : SchedState),
    SchedInv (fin t0) st →
    SchedInv (fin (t0 + acts.length)) (schedRun fin acts t0 st) := by
  intro acts
  induction acts with
  | nil =>
    intro t0 st h
    simpa [schedRun] using h
  | cons a rest ih =>
    intro t0 st h
    rw [schedRun]
    have h1 : SchedInv (fin t0) (tick (fin t0) a st) := tickFrom_inv (fin t0) a 0 st h
    have h2 : SchedInv (fin (t0 + 1)) (tick (fin t0) a st) :=
      schedInv_mono (fun id => hmono t0 (t0 + 1) id (by omega)) h1
    have h3 := ih (t0 + 1) (tick (fin t0) a st) h2
    have harith : t0 + 1 + rest.length = t0 + (a :: rest).length := by
      simp [List.length_cons]
      omega
    rw [harith] at h3
    exact h3

/-- C9: in every reachable state of the scheduler loop (any finite run of
poll iterations from the empty state, under any monotone thread-liveness
oracle and any hotkey activity pattern), at most one execution context
per macro index is unfinished: two spawned contexts of the same index
that are both unfinished at the end of the run are the same context.
Moreover one poll slot behaves exactly as the claim's mechanism says: with
no recorded handle it spawns and records a new context; with a finished
recorded handle it spawns and records a replacement; with a live recorded
handle it only appends the warning, leaving the map and the id counter
untouched. -/
theorem C9_single_context_per_index :
    (∀ (fin : Nat → Nat → Bool) (acts : List (List Bool)),
      (∀ t t' id, t ≤ t' → fin t id = true → fin t' id = true) →
      ∀ p ∈ spawnsOf (schedRun fin acts 0 schedInit).events,
        ∀ q ∈ spawnsOf (schedRun fin acts 0 schedInit).events,
          p.1 = q.1 → fin acts.length p.2 = false → fin acts.length q.2 = false →
            p.2 = q.2) ∧
    (∀ (f : Nat → Bool) (st : SchedState) (idx : Nat),
      lookupThread st.threads idx = none →
      tickIndex f st idx true =
        { threads := insertThread st.threads idx st.nextId, nextId := st.nextId + 1,
          events := st.events ++ [SchedEvent.spawnedFirst idx st.nextId] }) ∧
    (∀ (f : Nat → Bool) (st : SchedState) (idx id : Nat),
      lookupThread st.threads idx = some id → f id = true →
      tickIndex f st idx true =
        { threads := insertThread st.threads idx st.nextId, nextId := st.nextId + 1,
          events := st.events ++ [SchedEvent.spawnedLogged idx st.nextId] }) ∧
    (∀ (f : Nat → Bool) (st : SchedState) (idx id : Nat),
      lookupThread st.threads idx = some id → f id = false →
      tickIndex f st idx true = { st with events := st.events ++ [SchedEvent.warned idx] }) := by
  refine ⟨fun fin acts hmono p hp q hq hpq hfp hfq => ?_,
    fun f st idx hl => ?_, fun f st idx id hl hf => ?_, fun f st idx id hl hf => ?_⟩
  · have hinit : SchedInv (fin 0) schedInit := by
      intro r hr
      simp [schedInit, spawnsOf] at hr
    have hinv := schedRun_inv fin hmono acts 0 schedInit hinit
    rw [Nat.zero_add] at hinv
    rcases hinv p hp with hfpt | hlp
    · rw [hfpt] at hfp
      cases hfp
    · rcases hinv q hq with hfqt | hlq
      · rw [hfqt] at hfq
        cases hfq
      · rw [hpq] at hlp
        rw [hlp] at hlq
        exact Option.some.inj hlq
  · rw [tickIndex]
    simp only [if_true]
    rw [hl]
  · rw [tickIndex]
    simp only [if_true]
    rw [hl]
    dsimp only
    rw [hf]
    simp only [if_true]
  · rw [tickIndex]
    simp only [if_true]
    rw [hl]
    dsimp only
    rw [hf, if_neg (by decide : ¬ false = true)]

theorem C9_witness :
    (((0, 0) : Nat × Nat)).2 = (((0, 0) : Nat × Nat)).2 ∧
    tickIndex (fun _ => false) schedInit 0 true =
      { threads := insertThread schedInit.threads 0 schedInit.nextId,
        nextId := schedInit.nextId + 1,
        events := schedInit.events ++ [SchedEvent.spawnedFirst 0 schedInit.nextId] } ∧
    tickIndex (fun _ => false) ⟨[(0, 5)], 6, []⟩ 0 true =
      (⟨[(0, 5)], 6, [] ++ [SchedEvent.warned 0]⟩ : SchedState) :=
  ⟨C9_single_context_per_index.1 (fun _ _ => false) [[true], [true]]
      (fun _ _ _ _ h => h) (0, 0) (by decide) (0, 0) (by decide) rfl rfl rfl,
   C9_single_context_per_index.2.1 (fun _ => false) schedInit 0 (by decide),
   C9_single_context_per_index.2.2.2 (fun _ => false) ⟨[(0, 5)], 6, []⟩ 0 5 (by decide) rfl⟩
